import Mathlib

/-! Marlin STM32F4/F7 hardware SPI driver (`HAL_SPI.cpp`).

A shallow embedding of `Marlin/src/HAL/HAL_STM32_F4_F7/HAL_SPI.cpp`.

* Bytes, selectors, lengths and addresses are natural numbers; a parameter of C type
  `uint8_t` / `uint16_t` is reduced `% 256` / `% 65536` where the function receives it.
* The file-static `spiConfig`, the GPIO pins and the byte-addressed memory the pointer
  arguments refer to are fields of an explicit `State` that every driver function threads.
* The `SPI` object of `<SPI.h>` is not part of the translation unit.  It is represented by a
  recording bus (`Bus`): every call is appended to a trace together with the data it moves,
  and the bytes the device answers with come from a scripted response stream.
* The `#define`d constants the file uses but does not define (`SS_PIN`, `SPI_FULL_SPEED`, ...)
  are parameters (`Defines`).
* The file is compiled only under `STM32GENERIC`, so the `#ifdef STM32GENERIC` branches of
  `spiRead` and `spiSendBlock` are the ones embedded.
-/

namespace HAL_SPI

/-! ## Data model -/

/-- Bit order argument of `SPISettings` (Arduino SPI library). -/
inductive BitOrder
  | LSBFIRST
  | MSBFIRST
  deriving DecidableEq

/-- Clock polarity/phase argument of `SPISettings` (Arduino SPI library). -/
inductive DataMode
  | SPI_MODE0
  | SPI_MODE1
  | SPI_MODE2
  | SPI_MODE3
  deriving DecidableEq

/-- The value built by `SPISettings(clock, bitOrder, dataMode)`. -/
structure SPISettings where
  clock : Nat
  bitOrder : BitOrder
  dataMode : DataMode
  deriving DecidableEq

/-- One call made on the `SPI` object, as recorded by the bus, with the bytes it moved. -/
inductive BusEvent
  /-- The call `SPI.begin()`. -/
  | begin
  /-- The call `SPI.beginTransaction(cfg)`. -/
  | beginTransaction (cfg : SPISettings)
  /-- The call `SPI.transfer(tx)`, which returned `rx`. -/
  | transfer (tx rx : Nat)
  /-- The call `SPI.dmaTransfer(transmitBuf, receiveBuf, length)`: `tx` is the block read
  from `transmitBuf` (`none` for a null `transmitBuf`), `rx` the block stored at
  `receiveBuf`. -/
  | dmaTransfer (tx : Option (List Nat)) (rx : List Nat)
  /-- The call `SPI.dmaSend(transmitBuf, length)`: `tx` is the block read from
  `transmitBuf`. -/
  | dmaSend (tx : List Nat)
  /-- The call `SPI.endTransaction()`. -/
  | endTransaction
  deriving DecidableEq

/-- Byte-addressed memory: the contents of the address a pointer argument holds. -/
abbrev Mem := Nat → Nat

/-- The recording bus standing for the `SPI` object. -/
structure Bus where
  /-- calls made so far, oldest first -/
  trace : List BusEvent
  /-- scripted answers of the device: `miso k` answers the `k`-th byte clocked -/
  miso : Nat → Nat
  /-- number of bytes clocked so far -/
  clk : Nat

/-- A GPIO pin: whether it is configured as an output, and its logic level (`true` = HIGH). -/
structure Pin where
  output : Bool
  level : Bool
  deriving DecidableEq

/-- Everything the driver functions read or write. -/
structure State where
  /-- the file-static `static SPISettings spiConfig;` -/
  spiConfig : SPISettings
  /-- GPIO pins by number -/
  pins : Nat → Pin
  /-- memory behind the `buf` pointers -/
  mem : Mem
  /-- the `SPI` object -/
  bus : Bus

/-- Constants the file takes from headers that are not part of it.  `SS_PIN` is a natural
number because `spiBegin` refuses to compile when it is undefined or negative. -/
structure Defines where
  SS_PIN : Nat
  SPI_FULL_SPEED : Nat
  SPI_HALF_SPEED : Nat
  SPI_QUARTER_SPEED : Nat
  SPI_EIGHTH_SPEED : Nat
  SPI_SPEED_5 : Nat
  SPI_SPEED_6 : Nat

/-- Logic level `HIGH`. -/
def HIGH : Bool := true

/-! ## The `SPI` object -/

/-- Modelled from the spec: `SPI.begin()` of the platform SPI library (not under src/);
peripheral bring-up, recorded on the bus. -/
def SPI.begin (b : Bus) : Bus :=
  { b with trace := b.trace ++ [BusEvent.begin] }

/-- Modelled from the spec: `SPI.beginTransaction(settings)` of the platform SPI library
(not under src/); acquires the bus with the given configuration. -/
def SPI.beginTransaction (settings : SPISettings) (b : Bus) : Bus :=
  { b with trace := b.trace ++ [BusEvent.beginTransaction settings] }

/-- Modelled from the spec: `SPI.endTransaction()` of the platform SPI library (not under
src/); releases the bus. -/
def SPI.endTransaction (b : Bus) : Bus :=
  { b with trace := b.trace ++ [BusEvent.endTransaction] }

/-- Modelled from the spec: `uint8_t SPI.transfer(uint8_t data)` of the platform SPI library
(not under src/); clocks one byte out and returns the byte the device answers with. -/
def SPI.transfer (data : Nat) (b : Bus) : Nat × Bus :=
  let rx := b.miso b.clk % 256
  (rx, { b with trace := b.trace ++ [BusEvent.transfer (data % 256) rx], clk := b.clk + 1 })

/-- The byte stored at address `a`. -/
def peek (m : Mem) (a : Nat) : Nat :=
  m a % 256

/-- Read `n` bytes of memory starting at address `a`. -/
def loadBlock (m : Mem) (a n : Nat) : List Nat :=
  (List.range n).map (fun i => peek m (a + i))

/-- The next `n` bytes the device will answer with. -/
def pending (b : Bus) (n : Nat) : List Nat :=
  (List.range n).map (fun i => b.miso (b.clk + i) % 256)

/-- Store the bytes `vs` at consecutive addresses starting at `a`. -/
def storeBlock : Mem → Nat → List Nat → Mem
  | m, _, [] => m
  | m, a, v :: vs => storeBlock (Function.update m a v) (a + 1) vs

/-- Modelled from the spec: `SPI.dmaTransfer(transmitBuf, receiveBuf, length)` of the
platform SPI library (not under src/); a blocking bulk transfer that clocks `length` bytes
and stores the answers at `receiveBuf`, `receiveBuf + 1`, ...  A null `transmitBuf` means
the caller supplies no transmit data. -/
def SPI.dmaTransfer (transmitBuf receiveBuf length : Nat) (m : Mem) (b : Bus) : Mem × Bus :=
  let n := length % 65536
  let rx := pending b n
  let tx := if transmitBuf = 0 then none else some (loadBlock m transmitBuf n)
  (storeBlock m receiveBuf rx,
   { b with trace := b.trace ++ [BusEvent.dmaTransfer tx rx], clk := b.clk + n })

/-- Modelled from the spec: `SPI.dmaSend(transmitBuf, length)` of the platform SPI library
(not under src/); a blocking bulk transfer that clocks out the `length` bytes found at
`transmitBuf`, `transmitBuf + 1`, ... -/
def SPI.dmaSend (transmitBuf length : Nat) (m : Mem) (b : Bus) : Bus :=
  let n := length % 65536
  { b with trace := b.trace ++ [BusEvent.dmaSend (loadBlock m transmitBuf n)], clk := b.clk + n }

/-- Modelled from the spec: the `OUT_WRITE(pin, V)` macro of the HAL's fastio header (not
under src/); drives pin number `pin` as an output at level `V`. -/
def OUT_WRITE (pin : Nat) (V : Bool) (pins : Nat → Pin) : Nat → Pin :=
  Function.update pins pin { output := true, level := V }

/-! ## The driver (`HAL_SPI.cpp`, lines 74-162) -/

/-- Source `void spiBegin()`: `OUT_WRITE(SS_PIN, HIGH);` -/
def spiBegin (d : Defines) (s : State) : State :=
  { s with pins := OUT_WRITE d.SS_PIN HIGH s.pins }

/-- The `switch (spiRate)` of `spiInit`, cases in source order. -/
def spiInit.clock (d : Defines) (spiRate : Nat) : Nat :=
  if spiRate = d.SPI_FULL_SPEED then 20000000
  else if spiRate = d.SPI_HALF_SPEED then 5000000
  else if spiRate = d.SPI_QUARTER_SPEED then 2500000
  else if spiRate = d.SPI_EIGHTH_SPEED then 1250000
  else if spiRate = d.SPI_SPEED_5 then 625000
  else if spiRate = d.SPI_SPEED_6 then 300000
  else 4000000

/-- Source `void spiInit(uint8_t spiRate)`: the `switch`, then
`spiConfig = SPISettings(clock, MSBFIRST, SPI_MODE0); SPI.begin();` -/
def spiInit (d : Defines) (spiRate : Nat) (s : State) : State :=
  let clock := spiInit.clock d (spiRate % 256)
  { s with
    spiConfig := { clock := clock, bitOrder := BitOrder.MSBFIRST, dataMode := DataMode.SPI_MODE0 }
    bus := SPI.begin s.bus }

/-- Source `uint8_t spiRec()`: the returned byte and the state afterwards. -/
def spiRec (s : State) : Nat × State :=
  let b1 := SPI.beginTransaction s.spiConfig s.bus
  let r := SPI.transfer 0xFF b1
  let returnByte := r.1
  let b3 := SPI.endTransaction r.2
  (returnByte, { s with bus := b3 })

/-- Source `void spiRead(uint8_t* buf, uint16_t nbyte)`, with the
`SPI.dmaTransfer(0, buf, nbyte)` of the `STM32GENERIC` branch. -/
def spiRead (buf nbyte : Nat) (s : State) : State :=
  let b1 := SPI.beginTransaction s.spiConfig s.bus
  let r := SPI.dmaTransfer 0 buf (nbyte % 65536) s.mem b1
  let b3 := SPI.endTransaction r.2
  { s with mem := r.1, bus := b3 }

/-- Source `void spiSend(uint8_t b)`. -/
def spiSend (b : Nat) (s : State) : State :=
  let b1 := SPI.beginTransaction s.spiConfig s.bus
  let r := SPI.transfer (b % 256) b1
  let b3 := SPI.endTransaction r.2
  { s with bus := b3 }

/-- Source `void spiSendBlock(uint8_t token, const uint8_t* buf)`, with the
`SPI.dmaSend(buf, 512)` of the `STM32GENERIC` branch. -/
def spiSendBlock (token buf : Nat) (s : State) : State :=
  let b1 := SPI.beginTransaction s.spiConfig s.bus
  let r := SPI.transfer (token % 256) b1
  let b2 := SPI.dmaSend buf 512 s.mem r.2
  let b3 := SPI.endTransaction b2
  { s with bus := b3 }

/-- The driver's entry points with their arguments. -/
inductive Op
  | spiBegin
  | spiInit (spiRate : Nat)
  | spiRec
  | spiRead (buf nbyte : Nat)
  | spiSend (b : Nat)
  | spiSendBlock (token buf : Nat)
  deriving DecidableEq

/-- One call of a driver entry point (the byte `spiRec` returns is dropped). -/
def step (d : Defines) : Op → State → State
  | Op.spiBegin, s => spiBegin d s
  | Op.spiInit spiRate, s => spiInit d spiRate s
  | Op.spiRec, s => (spiRec s).2
  | Op.spiRead buf nbyte, s => spiRead buf nbyte s
  | Op.spiSend b, s => spiSend b s
  | Op.spiSendBlock token buf, s => spiSendBlock token buf s

/-- A sequence of calls, one after the other. -/
def run (d : Defines) : List Op → State → State
  | [], s => s
  | o :: os, s => run d os (step d o s)

/-- The rate-selection operation. -/
def Op.isInit : Op → Bool
  | Op.spiInit _ => true
  | _ => false

/-! ## Observations used to state the properties -/

/-- The clock-rate table of the specification (section 4.1): selector, frequency in Hz. -/
def specRateTable (d : Defines) : List (Nat × Nat) :=
  [(d.SPI_FULL_SPEED, 20000000), (d.SPI_HALF_SPEED, 5000000), (d.SPI_QUARTER_SPEED, 2500000),
   (d.SPI_EIGHTH_SPEED, 1250000), (d.SPI_SPEED_5, 625000), (d.SPI_SPEED_6, 300000)]

/-- The six selectors are pairwise different, as the labels of a C `switch` have to be. -/
def Defines.ratesDistinct (d : Defines) : Prop :=
  ((specRateTable d).map Prod.fst).Nodup

instance (d : Defines) : Decidable d.ratesDistinct := by
  unfold Defines.ratesDistinct; infer_instance

/-- The bus events recorded between state `s` and the later state `t`. -/
def emitted (s t : State) : List BusEvent :=
  t.bus.trace.drop s.bus.trace.length

/-- Replays a trace against the ownership of the bus (`held`).  The result is `none` when the
trace acquires the bus while it is held, releases it or moves data while it is not held;
otherwise it is whether the bus is held at the end. -/
def replay : Bool → List BusEvent → Option Bool
  | held, [] => some held
  | held, BusEvent.begin :: es => replay held es
  | held, BusEvent.beginTransaction _ :: es => if held then none else replay true es
  | held, BusEvent.endTransaction :: es => if held then replay false es else none
  | held, _ :: es => if held then replay held es else none

/-- The configurations the acquires of a trace carry, in order. -/
def acquires : List BusEvent → List SPISettings
  | [] => []
  | BusEvent.beginTransaction cfg :: es => cfg :: acquires es
  | _ :: es => acquires es

/-- The number of releases in a trace. -/
def releases : List BusEvent → Nat
  | [] => 0
  | BusEvent.endTransaction :: es => releases es + 1
  | _ :: es => releases es

/-- The bytes the caller hands to the bus for transmission, in order. -/
def payload : List BusEvent → List Nat
  | [] => []
  | BusEvent.transfer tx _ :: es => tx :: payload es
  | BusEvent.dmaSend tx :: es => tx ++ payload es
  | BusEvent.dmaTransfer (some tx) _ :: es => tx ++ payload es
  | _ :: es => payload es

/-- Splits a trace into its transactions.  `cur` is the transaction being recorded, if any:
its configuration and the calls made inside it so far.  A transaction is complete at its
release. -/
def transactionsFrom : Option (SPISettings × List BusEvent) → List BusEvent →
    List (SPISettings × List BusEvent)
  | _, [] => []
  | none, BusEvent.beginTransaction cfg :: es => transactionsFrom (some (cfg, [])) es
  | none, _ :: es => transactionsFrom none es
  | some cur, BusEvent.endTransaction :: es => cur :: transactionsFrom none es
  | some cur, e :: es => transactionsFrom (some (cur.1, cur.2 ++ [e])) es

/-- The completed transactions of a trace: configuration and calls made inside. -/
def transactions (es : List BusEvent) : List (SPISettings × List BusEvent) :=
  transactionsFrom none es

/-- A trace that is one acquire/release bracket: it starts with an acquire carrying `cfg`,
ends with a release, and has no other acquire and no other release. -/
def Bracketed (cfg : SPISettings) (evs : List BusEvent) : Prop :=
  evs.head? = some (BusEvent.beginTransaction cfg) ∧
  evs.getLast? = some BusEvent.endTransaction ∧
  acquires evs = [cfg] ∧
  releases evs = 1

/-! ## Concrete data for the scenarios -/

/-- The selector values of Marlin's shared SPI header, with chip-select on pin 4. -/
def marlinDefines : Defines :=
  { SS_PIN := 4, SPI_FULL_SPEED := 0, SPI_HALF_SPEED := 1, SPI_QUARTER_SPEED := 2,
    SPI_EIGHTH_SPEED := 3, SPI_SPEED_5 := 5, SPI_SPEED_6 := 6 }

/-- A bus with an empty trace whose device answers 1, 2, 3, ... -/
def countingBus : Bus :=
  { trace := [], miso := fun k => k + 1, clk := 0 }

/-- A start state: an arbitrary configuration, all pins low inputs, memory holding the low
byte of each address, and the counting bus. -/
def startState : State :=
  { spiConfig := { clock := 1, bitOrder := BitOrder.LSBFIRST, dataMode := DataMode.SPI_MODE3 }
    pins := fun _ => { output := false, level := false }
    mem := fun a => a % 256
    bus := countingBus }

/-! ## Auxiliary facts -/

theorem emitted_of_trace {s t : State} {evs : List BusEvent}
    (h : t.bus.trace = s.bus.trace ++ evs) : emitted s t = evs := by
  unfold emitted
  rw [h]
  exact List.drop_left _ _

/-- On a selector that is listed in the table, the `switch` yields the listed frequency. -/
theorem clock_of_mem (d : Defines) (hd : d.ratesDistinct) (p : Nat × Nat)
    (hp : p ∈ specRateTable d) : spiInit.clock d p.1 = p.2 := by
  unfold Defines.ratesDistinct specRateTable at hd
  simp only [List.map_cons, List.map_nil, List.nodup_cons, List.mem_cons, List.mem_singleton,
    not_or, List.not_mem_nil, not_false_eq_true, List.nodup_nil, and_true] at hd
  obtain ⟨⟨h12, h13, h14, h15, h16⟩, ⟨h23, h24, h25, h26⟩, ⟨h34, h35, h36⟩, ⟨h45, h46⟩, h56⟩ := hd
  unfold specRateTable at hp
  simp only [List.mem_cons, List.mem_singleton, List.not_mem_nil, or_false] at hp
  unfold spiInit.clock
  rcases hp with h | h | h | h | h | h <;> subst h <;> simp [*, Ne.symm, eq_comm]

/-- On a selector that is not listed in the table, the `switch` takes its default. -/
theorem clock_of_not_mem (d : Defines) (r : Nat)
    (hr : ∀ p ∈ specRateTable d, r ≠ p.1) : spiInit.clock d r = 4000000 := by
  have h1 := hr (d.SPI_FULL_SPEED, 20000000) (by simp [specRateTable])
  have h2 := hr (d.SPI_HALF_SPEED, 5000000) (by simp [specRateTable])
  have h3 := hr (d.SPI_QUARTER_SPEED, 2500000) (by simp [specRateTable])
  have h4 := hr (d.SPI_EIGHTH_SPEED, 1250000) (by simp [specRateTable])
  have h5 := hr (d.SPI_SPEED_5, 625000) (by simp [specRateTable])
  have h6 := hr (d.SPI_SPEED_6, 300000) (by simp [specRateTable])
  simp only at h1 h2 h3 h4 h5 h6
  simp [spiInit.clock, h1, h2, h3, h4, h5, h6]

theorem spiInit_spiConfig (d : Defines) (r : Nat) (hr : r < 256) (s : State) :
    (spiInit d r s).spiConfig =
      { clock := spiInit.clock d r, bitOrder := BitOrder.MSBFIRST,
        dataMode := DataMode.SPI_MODE0 } := by
  simp [spiInit, Nat.mod_eq_of_lt hr]

theorem storeBlock_outside (vs : List Nat) :
    ∀ (m : Mem) (a x : Nat), x < a ∨ a + vs.length ≤ x → storeBlock m a vs x = m x := by
  induction vs with
  | nil => intro m a x _; rfl
  | cons v vs ih =>
    intro m a x hx
    have hne : x ≠ a := by
      rcases hx with h | h
      · omega
      · simp only [List.length_cons] at h; omega
    have hstep : x < a + 1 ∨ a + 1 + vs.length ≤ x := by
      rcases hx with h | h
      · left; omega
      · right; simp only [List.length_cons] at h; omega
    show storeBlock (Function.update m a v) (a + 1) vs x = m x
    rw [ih (Function.update m a v) (a + 1) x hstep, Function.update_noteq hne]

theorem storeBlock_inside (vs : List Nat) :
    ∀ (m : Mem) (a i : Nat), i < vs.length → vs[i]? = some (storeBlock m a vs (a + i)) := by
  induction vs with
  | nil => intro m a i hi; simp at hi
  | cons v vs ih =>
    intro m a i hi
    cases i with
    | zero =>
      show (v :: vs)[0]? = some (storeBlock (Function.update m a v) (a + 1) vs (a + 0))
      rw [storeBlock_outside vs (Function.update m a v) (a + 1) (a + 0) (by left; omega)]
      simp
    | succ j =>
      have hj : j < vs.length := by simp only [List.length_cons] at hi; omega
      show (v :: vs)[j + 1]? = some (storeBlock (Function.update m a v) (a + 1) vs (a + (j + 1)))
      have hadd : a + (j + 1) = a + 1 + j := by omega
      rw [hadd, ← ih (Function.update m a v) (a + 1) j hj]
      simp

theorem pending_length (b : Bus) (n : Nat) : (pending b n).length = n := by
  simp [pending]

theorem pending_getElem? (b : Bus) (n i : Nat) (hi : i < n) :
    (pending b n)[i]? = some (b.miso (b.clk + i) % 256) := by
  simp [pending, List.getElem?_map, List.getElem?_range hi]

theorem loadBlock_length (m : Mem) (a n : Nat) : (loadBlock m a n).length = n := by
  simp [loadBlock]

theorem loadBlock_getElem? (m : Mem) (a n i : Nat) (hi : i < n) :
    (loadBlock m a n)[i]? = some (peek m (a + i)) := by
  simp [loadBlock, List.getElem?_map, List.getElem?_range hi]

theorem spiRead_mem (buf n : Nat) (hn : n < 65536) (s : State) :
    (spiRead buf n s).mem = storeBlock s.mem buf (pending s.bus n) := by
  simp [spiRead, SPI.dmaTransfer, SPI.beginTransaction, Nat.mod_eq_of_lt hn, pending]

theorem replay_append (a b : List BusEvent) :
    ∀ held : Bool, replay held (a ++ b) = (replay held a).bind (fun h => replay h b) := by
  induction a with
  | nil => intro held; rfl
  | cons e a ih =>
    intro held
    cases e <;> cases held <;> simp [replay, ih]

theorem acquires_append (a b : List BusEvent) :
    acquires (a ++ b) = acquires a ++ acquires b := by
  induction a with
  | nil => rfl
  | cons e a ih => cases e <;> simp [acquires, ih]

theorem spiRec_trace (s : State) :
    (spiRec s).2.bus.trace = s.bus.trace ++
      [BusEvent.beginTransaction s.spiConfig,
       BusEvent.transfer 0xFF (s.bus.miso s.bus.clk % 256), BusEvent.endTransaction] := by
  simp [spiRec, SPI.beginTransaction, SPI.transfer, SPI.endTransaction]

theorem spiRead_trace (buf nbyte : Nat) (s : State) :
    (spiRead buf nbyte s).bus.trace = s.bus.trace ++
      [BusEvent.beginTransaction s.spiConfig,
       BusEvent.dmaTransfer none (pending s.bus (nbyte % 65536)), BusEvent.endTransaction] := by
  simp [spiRead, SPI.beginTransaction, SPI.dmaTransfer, SPI.endTransaction, pending]

theorem spiSend_trace (b : Nat) (s : State) :
    (spiSend b s).bus.trace = s.bus.trace ++
      [BusEvent.beginTransaction s.spiConfig,
       BusEvent.transfer (b % 256) (s.bus.miso s.bus.clk % 256), BusEvent.endTransaction] := by
  simp [spiSend, SPI.beginTransaction, SPI.transfer, SPI.endTransaction]

theorem spiSendBlock_trace (token buf : Nat) (s : State) :
    (spiSendBlock token buf s).bus.trace = s.bus.trace ++
      [BusEvent.beginTransaction s.spiConfig,
       BusEvent.transfer (token % 256) (s.bus.miso s.bus.clk % 256),
       BusEvent.dmaSend (loadBlock s.mem buf 512), BusEvent.endTransaction] := by
  simp [spiSendBlock, SPI.beginTransaction, SPI.transfer, SPI.dmaSend, SPI.endTransaction]

theorem spiInit_trace (d : Defines) (spiRate : Nat) (s : State) :
    (spiInit d spiRate s).bus.trace = s.bus.trace ++ [BusEvent.begin] := by
  simp [spiInit, SPI.begin]

/-- What one call appends to the trace. -/
theorem step_trace (d : Defines) (o : Op) (s : State) :
    ∃ evs, (step d o s).bus.trace = s.bus.trace ++ evs ∧
      replay false evs = some false ∧
      (∀ cfg ∈ acquires evs, cfg = s.spiConfig) := by
  cases o with
  | spiBegin => exact ⟨[], by simp [step, spiBegin], rfl, by simp [acquires]⟩
  | spiInit r => exact ⟨_, spiInit_trace d r s, rfl, by simp [acquires]⟩
  | spiRec => exact ⟨_, spiRec_trace s, rfl, by simp [acquires]⟩
  | spiRead buf n => exact ⟨_, spiRead_trace buf n s, rfl, by simp [acquires]⟩
  | spiSend b => exact ⟨_, spiSend_trace b s, rfl, by simp [acquires]⟩
  | spiSendBlock t buf => exact ⟨_, spiSendBlock_trace t buf s, rfl, by simp [acquires]⟩

/-- Calls other than `spiInit` keep the active configuration. -/
theorem step_spiConfig (d : Defines) (o : Op) (ho : o.isInit = false) (s : State) :
    (step d o s).spiConfig = s.spiConfig := by
  cases o with
  | spiInit r => simp [Op.isInit] at ho
  | spiBegin => rfl
  | spiRec => rfl
  | spiRead buf n => rfl
  | spiSend b => rfl
  | spiSendBlock t buf => rfl

/-- What a sequence of calls appends to the trace. -/
theorem run_trace (d : Defines) (ops : List Op) :
    ∀ s : State, ∃ evs, (run d ops s).bus.trace = s.bus.trace ++ evs ∧
      replay false evs = some false ∧
      ((∀ o ∈ ops, Op.isInit o = false) →
        (run d ops s).spiConfig = s.spiConfig ∧ ∀ cfg ∈ acquires evs, cfg = s.spiConfig) := by
  induction ops with
  | nil => intro s; exact ⟨[], by simp [run], rfl, fun _ => ⟨rfl, by simp [acquires]⟩⟩
  | cons o ops ih =>
    intro s
    obtain ⟨e1, ht1, hr1, ha1⟩ := step_trace d o s
    obtain ⟨e2, ht2, hr2, hc2⟩ := ih (step d o s)
    refine ⟨e1 ++ e2, ?_, ?_, ?_⟩
    · show (run d ops (step d o s)).bus.trace = s.bus.trace ++ (e1 ++ e2)
      rw [ht2, ht1, List.append_assoc]
    · rw [replay_append, hr1]; exact hr2
    · intro hops
      have ho : Op.isInit o = false := hops o (List.mem_cons_self _ _)
      have hrest : ∀ o' ∈ ops, Op.isInit o' = false :=
        fun o' h => hops o' (List.mem_cons_of_mem _ h)
      obtain ⟨hcfg, hacq⟩ := hc2 hrest
      have hs := step_spiConfig d o ho s
      refine ⟨?_, ?_⟩
      · show (run d ops (step d o s)).spiConfig = s.spiConfig
        rw [hcfg, hs]
      · intro cfg hcfg'
        rw [acquires_append, List.mem_append] at hcfg'
        rcases hcfg' with h | h
        · exact ha1 cfg h
        · rw [hacq cfg h, hs]

/-! ## Properties of the driver -/

/-- C1: for every 8-bit rate value `r` (the six selectors being pairwise different),
`spiInit r` leaves as active configuration (freq, MSB-first, mode 0), where freq is the
frequency the table lists for `r` when `r` is one of the six selectors and 4,000,000 for
every other `r`; the result is the same whatever state the call starts from. -/
theorem spiInit_installs_table_config (d : Defines) (hd : d.ratesDistinct) (r : Nat)
    (hr : r < 256) (s : State) :
    (∀ p ∈ specRateTable d, r = p.1 →
        (spiInit d r s).spiConfig =
          { clock := p.2, bitOrder := BitOrder.MSBFIRST, dataMode := DataMode.SPI_MODE0 }) ∧
    ((∀ p ∈ specRateTable d, r ≠ p.1) →
        (spiInit d r s).spiConfig =
          { clock := 4000000, bitOrder := BitOrder.MSBFIRST, dataMode := DataMode.SPI_MODE0 }) ∧
    (∀ t : State, (spiInit d r t).spiConfig = (spiInit d r s).spiConfig) := by
  refine ⟨?_, ?_, ?_⟩
  · intro p hp hrp
    rw [spiInit_spiConfig d r hr s, hrp, clock_of_mem d hd p hp]
  · intro hnot
    rw [spiInit_spiConfig d r hr s, clock_of_not_mem d r hnot]
  · intro t
    rw [spiInit_spiConfig d r hr s, spiInit_spiConfig d r hr t]

/-- Witness for C1 with Marlin's selector values: speed-6 (selector 6) installs 300,000 Hz,
and selector 4, which is not in the table, installs the default 4,000,000 Hz. -/
theorem spiInit_installs_table_config_witness :
    marlinDefines.ratesDistinct ∧ 6 < 256 ∧
    (spiInit marlinDefines 6 startState).spiConfig =
      { clock := 300000, bitOrder := BitOrder.MSBFIRST, dataMode := DataMode.SPI_MODE0 } ∧
    (spiInit marlinDefines 4 startState).spiConfig =
      { clock := 4000000, bitOrder := BitOrder.MSBFIRST, dataMode := DataMode.SPI_MODE0 } :=
  ⟨by decide, by decide,
   (spiInit_installs_table_config marlinDefines (by decide) 6 (by decide) startState).1
      (6, 300000) (by decide) rfl,
   (spiInit_installs_table_config marlinDefines (by decide) 4 (by decide) startState).2.1
      (by decide)⟩

/-- C4: from every state, whatever the device answers, `spiRec` returns exactly the byte
the bus supplies for its single transfer; inside one acquire/release bracket it makes one
`transfer` call, of the byte 0xFF, so exactly one byte is clocked and it is 0xFF. -/
theorem spiRec_sends_dummy_returns_response (s : State) :
    (spiRec s).1 = s.bus.miso s.bus.clk % 256 ∧
    emitted s (spiRec s).2 =
      [BusEvent.beginTransaction s.spiConfig, BusEvent.transfer 0xFF (spiRec s).1,
       BusEvent.endTransaction] ∧
    payload (emitted s (spiRec s).2) = [0xFF] ∧
    (spiRec s).2.bus.clk = s.bus.clk + 1 := by
  have h : emitted s (spiRec s).2 =
      [BusEvent.beginTransaction s.spiConfig, BusEvent.transfer 0xFF (spiRec s).1,
       BusEvent.endTransaction] := by
    apply emitted_of_trace
    simp [spiRec, SPI.beginTransaction, SPI.transfer, SPI.endTransaction]
  refine ⟨rfl, h, ?_, rfl⟩
  rw [h]
  rfl

/-- C7: from every state, `spiBegin` leaves the chip-select pin an output at logic high,
leaves every other pin, the active configuration, the memory and the bus as they were, and
calling it twice gives the same state as calling it once. -/
theorem spiBegin_drives_chip_select_high (d : Defines) (s : State) :
    ((spiBegin d s).pins d.SS_PIN).level = true ∧
    ((spiBegin d s).pins d.SS_PIN).output = true ∧
    (∀ p, p ≠ d.SS_PIN → (spiBegin d s).pins p = s.pins p) ∧
    (spiBegin d s).spiConfig = s.spiConfig ∧
    (spiBegin d s).bus = s.bus ∧
    (spiBegin d s).mem = s.mem ∧
    spiBegin d (spiBegin d s) = spiBegin d s := by
  refine ⟨?_, ?_, ?_, rfl, rfl, rfl, ?_⟩
  · simp [spiBegin, OUT_WRITE, HIGH]
  · simp [spiBegin, OUT_WRITE]
  · intro p hp
    simp [spiBegin, OUT_WRITE, Function.update_noteq hp]
  · simp [spiBegin, OUT_WRITE]

/-- C8: from every state and for every argument, each of `spiInit`, `spiRec`, `spiRead`,
`spiSend` and `spiSendBlock` leaves every pin, the chip-select pin included, exactly as it
was; `spiBegin` is the one entry point that writes it (it turns a low chip-select high). -/
theorem only_spiBegin_writes_chip_select (d : Defines) (s : State) :
    (∀ spiRate, (spiInit d spiRate s).pins = s.pins) ∧
    (spiRec s).2.pins = s.pins ∧
    (∀ buf nbyte, (spiRead buf nbyte s).pins = s.pins) ∧
    (∀ b, (spiSend b s).pins = s.pins) ∧
    (∀ token buf, (spiSendBlock token buf s).pins = s.pins) ∧
    (∀ o : Op, (step d o s).pins d.SS_PIN ≠ s.pins d.SS_PIN → o = Op.spiBegin) ∧
    (startState.pins marlinDefines.SS_PIN).level = false ∧
    ((spiBegin marlinDefines startState).pins marlinDefines.SS_PIN).level = true := by
  refine ⟨fun _ => rfl, rfl, fun _ _ => rfl, fun _ => rfl, fun _ _ => rfl, ?_, rfl, ?_⟩
  · intro o ho
    cases o with
    | spiBegin => rfl
    | spiInit r => exact absurd rfl ho
    | spiRec => exact absurd rfl ho
    | spiRead buf n => exact absurd rfl ho
    | spiSend b => exact absurd rfl ho
    | spiSendBlock t buf => exact absurd rfl ho
  · simp [spiBegin, OUT_WRITE, HIGH]

/-- C2: for every token byte `token` and every buffer address `buf`, `spiSendBlock token buf`
records one acquire with the active configuration, the transfer of `token`, the bulk send of
the 512 bytes found at `buf`, and one release, and nothing else; the bytes handed to the bus
are `token` followed by `buf[0]`, ..., `buf[511]` in that order, 513 in all, and exactly 513
bytes are clocked; they form a single transaction. -/
theorem spiSendBlock_sends_token_then_block (token buf : Nat) (ht : token < 256) (s : State) :
    emitted s (spiSendBlock token buf s) =
      [BusEvent.beginTransaction s.spiConfig,
       BusEvent.transfer token (s.bus.miso s.bus.clk % 256),
       BusEvent.dmaSend (loadBlock s.mem buf 512), BusEvent.endTransaction] ∧
    payload (emitted s (spiSendBlock token buf s)) = token :: loadBlock s.mem buf 512 ∧
    (payload (emitted s (spiSendBlock token buf s))).length = 513 ∧
    (∀ i, i < 512 →
      (payload (emitted s (spiSendBlock token buf s)))[i + 1]? = some (peek s.mem (buf + i))) ∧
    (spiSendBlock token buf s).bus.clk = s.bus.clk + 513 ∧
    transactions (emitted s (spiSendBlock token buf s)) =
      [(s.spiConfig, [BusEvent.transfer token (s.bus.miso s.bus.clk % 256),
                      BusEvent.dmaSend (loadBlock s.mem buf 512)])] := by
  have h : emitted s (spiSendBlock token buf s) =
      [BusEvent.beginTransaction s.spiConfig,
       BusEvent.transfer token (s.bus.miso s.bus.clk % 256),
       BusEvent.dmaSend (loadBlock s.mem buf 512), BusEvent.endTransaction] := by
    have := emitted_of_trace (spiSendBlock_trace token buf s)
    rwa [Nat.mod_eq_of_lt ht] at this
  have hp : payload (emitted s (spiSendBlock token buf s)) = token :: loadBlock s.mem buf 512 := by
    rw [h]
    simp [payload]
  refine ⟨h, hp, ?_, ?_, ?_, ?_⟩
  · rw [hp, List.length_cons, loadBlock_length]
  · intro i hi
    rw [hp, List.getElem?_cons_succ, loadBlock_getElem? s.mem buf 512 i hi]
  · simp [spiSendBlock, SPI.beginTransaction, SPI.transfer, SPI.dmaSend, SPI.endTransaction]
  · rw [h]
    rfl

/-- Witness for C2: the token 0xFE and the block at address 0 of the start state. -/
theorem spiSendBlock_sends_token_then_block_witness :
    0xFE < 256 ∧
    (payload (emitted startState (spiSendBlock 0xFE 0 startState))).length = 513 ∧
    (payload (emitted startState (spiSendBlock 0xFE 0 startState)))[0]? = some 0xFE ∧
    (payload (emitted startState (spiSendBlock 0xFE 0 startState)))[512]? = some 255 :=
  ⟨by decide,
   (spiSendBlock_sends_token_then_block 0xFE 0 (by decide) startState).2.2.1,
   by rw [(spiSendBlock_sends_token_then_block 0xFE 0 (by decide) startState).2.1,
     List.getElem?_cons_zero],
   (spiSendBlock_sends_token_then_block 0xFE 0 (by decide) startState).2.2.2.1 511 (by decide)⟩

/-- C3: for every buffer address `buf`, every length `n` (a `uint16_t`) and every bus, after
`spiRead buf n` byte `i` of the buffer is the `i`-th of the next `n` bytes the device answers
with, for every `i < n`, and every byte at index `n` or beyond, like every byte below the
buffer, is unchanged. -/
theorem spiRead_fills_exactly_n (buf n : Nat) (hn : n < 65536) (s : State) :
    (∀ i, i < n → (pending s.bus n)[i]? = some ((spiRead buf n s).mem (buf + i))) ∧
    (∀ i, i < n → (spiRead buf n s).mem (buf + i) = s.bus.miso (s.bus.clk + i) % 256) ∧
    (∀ j, n ≤ j → (spiRead buf n s).mem (buf + j) = s.mem (buf + j)) ∧
    (∀ a, a < buf → (spiRead buf n s).mem a = s.mem a) ∧
    loadBlock (spiRead buf n s).mem buf n = pending s.bus n := by
  have hmem := spiRead_mem buf n hn s
  have hin : ∀ i, i < n →
      (pending s.bus n)[i]? = some ((spiRead buf n s).mem (buf + i)) := by
    intro i hi
    rw [hmem]
    exact storeBlock_inside (pending s.bus n) s.mem buf i (by rw [pending_length]; exact hi)
  have hval : ∀ i, i < n →
      (spiRead buf n s).mem (buf + i) = s.bus.miso (s.bus.clk + i) % 256 := by
    intro i hi
    have h1 := hin i hi
    rw [pending_getElem? s.bus n i hi] at h1
    exact (Option.some.inj h1).symm
  refine ⟨hin, hval, ?_, ?_, ?_⟩
  · intro j hj
    rw [hmem]
    exact storeBlock_outside _ _ _ _ (by right; rw [pending_length]; omega)
  · intro a ha
    rw [hmem]
    exact storeBlock_outside _ _ _ _ (by left; exact ha)
  · apply List.ext_getElem?
    intro i
    by_cases hi : i < n
    · rw [loadBlock_getElem? _ _ _ _ hi, pending_getElem? _ _ _ hi, peek, hval i hi,
        Nat.mod_mod]
    · rw [List.getElem?_eq_none (by rw [loadBlock_length]; omega),
        List.getElem?_eq_none (by rw [pending_length]; omega)]

/-- Witness for C3: a bus whose next ten answers are 1..10 and `spiRead` of ten bytes at
address 100 leave `[1, 2, ..., 10]` in the buffer's first ten bytes and the bytes around
them as they were. -/
theorem spiRead_fills_exactly_n_witness :
    10 < 65536 ∧
    pending startState.bus 10 = [1, 2, 3, 4, 5, 6, 7, 8, 9, 10] ∧
    loadBlock (spiRead 100 10 startState).mem 100 10 = [1, 2, 3, 4, 5, 6, 7, 8, 9, 10] ∧
    (spiRead 100 10 startState).mem (100 + 10) = startState.mem (100 + 10) :=
  ⟨by decide, by decide,
   (spiRead_fills_exactly_n 100 10 (by decide) startState).2.2.2.2.trans (by decide),
   (spiRead_fills_exactly_n 100 10 (by decide) startState).2.2.1 10 (by decide)⟩

/-- C5: from every state, what each of `spiRec`, `spiRead`, `spiSend` and `spiSendBlock`
records starts with one acquire carrying the active configuration, ends with one release and
holds no other acquire or release; and over every finite sequence of driver calls the bus
is never acquired while held, never released or used while free, and is free at the end. -/
theorem transfers_bracketed (d : Defines) (s : State) :
    Bracketed s.spiConfig (emitted s (spiRec s).2) ∧
    (∀ buf nbyte, Bracketed s.spiConfig (emitted s (spiRead buf nbyte s))) ∧
    (∀ b, Bracketed s.spiConfig (emitted s (spiSend b s))) ∧
    (∀ token buf, Bracketed s.spiConfig (emitted s (spiSendBlock token buf s))) ∧
    (∀ ops, replay false (emitted s (run d ops s)) = some false) := by
  refine ⟨?_, ?_, ?_, ?_, ?_⟩
  · rw [emitted_of_trace (spiRec_trace s)]
    exact ⟨rfl, rfl, rfl, rfl⟩
  · intro buf nbyte
    rw [emitted_of_trace (spiRead_trace buf nbyte s)]
    exact ⟨rfl, rfl, rfl, rfl⟩
  · intro b
    rw [emitted_of_trace (spiSend_trace b s)]
    exact ⟨rfl, rfl, rfl, rfl⟩
  · intro token buf
    rw [emitted_of_trace (spiSendBlock_trace token buf s)]
    exact ⟨rfl, rfl, rfl, rfl⟩
  · intro ops
    obtain ⟨evs, ht, hr, _⟩ := run_trace d ops s
    rw [emitted_of_trace ht]
    exact hr

/-- C6: the six selectors being pairwise different, for every selector `sel` of the table
with listed frequency `f` and every byte `b`, `spiInit sel` followed by `spiSend b` records
exactly one transaction, acquired at (`f`, MSB-first, mode 0), holding the single transfer
of `b`; `b` is the only byte handed to the bus. -/
theorem spiInit_spiSend_single_transaction (d : Defines) (hd : d.ratesDistinct)
    (sel f : Nat) (hsel : (sel, f) ∈ specRateTable d) (h8 : sel < 256)
    (b : Nat) (hb : b < 256) (s : State) :
    transactions (emitted s (spiSend b (spiInit d sel s))) =
      [({ clock := f, bitOrder := BitOrder.MSBFIRST, dataMode := DataMode.SPI_MODE0 },
        [BusEvent.transfer b (s.bus.miso s.bus.clk % 256)])] ∧
    payload (emitted s (spiSend b (spiInit d sel s))) = [b] ∧
    emitted s (spiSend b (spiInit d sel s)) =
      [BusEvent.begin,
       BusEvent.beginTransaction
         { clock := f, bitOrder := BitOrder.MSBFIRST, dataMode := DataMode.SPI_MODE0 },
       BusEvent.transfer b (s.bus.miso s.bus.clk % 256), BusEvent.endTransaction] := by
  have hcfg : (spiInit d sel s).spiConfig =
      { clock := f, bitOrder := BitOrder.MSBFIRST, dataMode := DataMode.SPI_MODE0 } := by
    rw [spiInit_spiConfig d sel h8 s]
    have := clock_of_mem d hd (sel, f) hsel
    simp only at this
    rw [this]
  have h : emitted s (spiSend b (spiInit d sel s)) =
      [BusEvent.begin,
       BusEvent.beginTransaction
         { clock := f, bitOrder := BitOrder.MSBFIRST, dataMode := DataMode.SPI_MODE0 },
       BusEvent.transfer b (s.bus.miso s.bus.clk % 256), BusEvent.endTransaction] := by
    apply emitted_of_trace
    rw [spiSend_trace, hcfg, spiInit_trace, Nat.mod_eq_of_lt hb]
    simp [spiInit, SPI.begin]
  refine ⟨?_, ?_, h⟩
  · rw [h]; rfl
  · rw [h]; rfl

/-- Witness for C6: with Marlin's selector values, full speed (selector 0) then the byte
0xAB is a single one-byte transaction of 0xAB at 20,000,000 Hz, MSB-first, mode 0. -/
theorem spiInit_spiSend_single_transaction_witness :
    marlinDefines.ratesDistinct ∧ (0, 20000000) ∈ specRateTable marlinDefines ∧
    transactions (emitted startState (spiSend 0xAB (spiInit marlinDefines 0 startState))) =
      [({ clock := 20000000, bitOrder := BitOrder.MSBFIRST, dataMode := DataMode.SPI_MODE0 },
        [BusEvent.transfer 0xAB 1])] :=
  ⟨by decide, by decide,
   (spiInit_spiSend_single_transaction marlinDefines (by decide) 0 20000000 (by decide)
      (by decide) 0xAB (by decide) startState).1⟩

/-- C9: the six selectors being pairwise different, for every 8-bit selector `sel` with
frequency `f` (the one the table lists for `sel`, or 4,000,000 when `sel` is not listed) and
every finite sequence of calls of `spiBegin`, `spiRec`, `spiRead`, `spiSend` and
`spiSendBlock` made after `spiInit sel`, with any arguments and any answers of the device,
the active configuration after the sequence is (`f`, MSB-first, mode 0) and every acquire
recorded during the sequence carries that configuration. -/
theorem spiConfig_changed_only_by_spiInit (d : Defines) (hd : d.ratesDistinct)
    (sel f : Nat) (h8 : sel < 256)
    (hf : (sel, f) ∈ specRateTable d ∨ ((∀ p ∈ specRateTable d, sel ≠ p.1) ∧ f = 4000000))
    (ops : List Op) (hops : ∀ o ∈ ops, Op.isInit o = false) (s : State) :
    (run d ops (spiInit d sel s)).spiConfig =
      { clock := f, bitOrder := BitOrder.MSBFIRST, dataMode := DataMode.SPI_MODE0 } ∧
    (∀ cfg ∈ acquires (emitted (spiInit d sel s) (run d ops (spiInit d sel s))),
      cfg = { clock := f, bitOrder := BitOrder.MSBFIRST, dataMode := DataMode.SPI_MODE0 }) := by
  have hcfg : (spiInit d sel s).spiConfig =
      { clock := f, bitOrder := BitOrder.MSBFIRST, dataMode := DataMode.SPI_MODE0 } := by
    rw [spiInit_spiConfig d sel h8 s]
    rcases hf with h | ⟨h, hf4⟩
    · have := clock_of_mem d hd (sel, f) h
      simp only at this
      rw [this]
    · rw [clock_of_not_mem d sel h, hf4]
  obtain ⟨evs, ht, _, hc⟩ := run_trace d ops (spiInit d sel s)
  obtain ⟨hkeep, hacq⟩ := hc hops
  refine ⟨by rw [hkeep, hcfg], ?_⟩
  intro cfg hmem
  rw [emitted_of_trace ht] at hmem
  rw [hacq cfg hmem, hcfg]

/-- Witness for C9: with Marlin's selector values, after speed-6 (selector 6) a ten-byte
`spiRead`, a `spiBegin` and a `spiSend` each acquire the bus at 300,000 Hz. -/
theorem spiConfig_changed_only_by_spiInit_witness :
    marlinDefines.ratesDistinct ∧ (6, 300000) ∈ specRateTable marlinDefines ∧
    (run marlinDefines [Op.spiRead 100 10, Op.spiBegin, Op.spiSend 7]
        (spiInit marlinDefines 6 startState)).spiConfig =
      { clock := 300000, bitOrder := BitOrder.MSBFIRST, dataMode := DataMode.SPI_MODE0 } ∧
    (∀ cfg ∈ acquires (emitted (spiInit marlinDefines 6 startState)
        (run marlinDefines [Op.spiRead 100 10, Op.spiBegin, Op.spiSend 7]
          (spiInit marlinDefines 6 startState))),
      cfg = { clock := 300000, bitOrder := BitOrder.MSBFIRST, dataMode := DataMode.SPI_MODE0 }) :=
  ⟨by decide, by decide,
   spiConfig_changed_only_by_spiInit marlinDefines (by decide) 6 300000 (by decide)
     (Or.inl (by decide)) [Op.spiRead 100 10, Op.spiBegin, Op.spiSend 7] (by decide) startState⟩

end HAL_SPI
